import Mathlib

/-!
Shallow embedding of `moveit_ros/moveit_benchmarks/src/run_benchmark.cpp`
(class `BenchmarkService`, methods `collectMetrics` and `computeBenchmark`).

C++ doubles are modelled as real numbers; the external collaborators
(kinematic state distance, collision checking, clearance queries, the
planner plugins and the wall clock) are modelled as abstract inputs, since
the source treats them as opaque services.  The bookkeeping that the source
performs itself (metric formulas, candidate resolution, the trial matrix,
report aggregation and the returned status) is translated statement by
statement from the C++.
-/

namespace RunBenchmark

/-- A metric value as stored in the run-data map: the C++ stringifies a
`double` or a `bool` via `boost::lexical_cast`; we keep the typed value. -/
inductive MVal where
  | real (x : ℝ)
  | bool (b : Bool)

/-- One trial record: the C++ `std::map<std::string, std::string>` of
`collectMetrics`, modelled as an association list with distinct keys. -/
abbrev RunData := List (String × MVal)

/-- One trajectory segment `mp_res.trajectory[j]` after
`convertToKinematicStates`: its description string, its waypoint count
`p.size()`, the pairwise state distances `p[i]->distance(*p[j])`, the
per-waypoint clearance `distanceToCollisionUnpadded`, the per-waypoint
collision flag of `checkCollisionUnpadded`, and `processing_time[j]`. -/
structure Segment where
  desc : String
  waypointCount : ℕ
  dist : ℕ → ℕ → ℝ
  dclear : ℕ → ℝ
  inCollision : ℕ → Bool
  processingTime : ℝ

/-- The detailed motion-plan response `mp_res`: a list of segments. -/
structure MPRes where
  segments : List Segment

/-- Path length of a segment, lines 156-157 of `run_benchmark.cpp`:
`for (k = 1; k < p.size(); ++k) L += p[k-1]->distance(*p[k])`. -/
noncomputable def pathLength (seg : Segment) : ℝ :=
  ∑ k ∈ Finset.Ico 1 seg.waypointCount, seg.dist (k - 1) k

/-- Correctness of a segment, lines 161-166: `correct` starts `true` and is
set to `false` whenever a waypoint is in collision. -/
def correctB (seg : Segment) : Bool :=
  (List.range seg.waypointCount).all (fun k => ! seg.inCollision k)

/-- Clearance of a segment, lines 161-170: the loop accumulates
`clearance += d` over every waypoint and then executes
`clearance /= (double)p.size()` with no guard on `p.size()`. -/
noncomputable def clearanceLoop (dclear : ℕ → ℝ) (n : ℕ) : ℝ :=
  ((List.range n).foldl (fun acc k => acc + dclear k) 0) / (n : ℝ)

/-- The smoothness loop body, lines 176-200: `j` counts the remaining
iterations, `k` is the loop index, `a` is the carried previous segment
length (`a = b` at the end of each iteration) and `acc` the accumulated
`smoothness`.  Each iteration computes `b`, `cdist`, `acosValue` and adds
`(2 * (pi - acos acosValue))^2` only when `acosValue` is strictly inside
`(-1, 1)`. -/
noncomputable def smoothAux (dist : ℕ → ℕ → ℝ) : ℕ → ℕ → ℝ → ℝ → ℝ
  | 0, _, _, acc => acc
  | j + 1, k, a, acc =>
    let b := dist (k - 1) k
    let cdist := dist (k - 2) k
    let acosValue := (a * a + b * b - cdist * cdist) / (2 * a * b)
    smoothAux dist j (k + 1) b
      (if -1 < acosValue ∧ acosValue < 1 then
        acc + (2 * (Real.pi - Real.arccos acosValue)) ^ 2
      else acc)

/-- Smoothness of a segment, lines 173-202: only computed when
`p.size() > 2` (the loop starts at `k = 2` with `a = dist(0,1)` and the
total is divided by `p.size()`); otherwise `smoothness` stays `0`. -/
noncomputable def smoothness (dist : ℕ → ℕ → ℝ) (n : ℕ) : ℝ :=
  if 2 < n then smoothAux dist (n - 2) 2 (dist 0 1) 0 / (n : ℝ) else 0

/-- Residual processing time, lines 144, 208-212: `process_time` starts at
`total_time`, each value of `processing_time[j]` is subtracted, and the
result is clamped: `if (process_time <= 0.0) process_time = 0.0`. -/
noncomputable def residualTime (totalTime : ℝ) (segTimes : List ℝ) : ℝ :=
  let p := segTimes.foldl (fun acc t => acc - t) totalTime
  if p ≤ 0 then 0 else p

/-- The five per-segment entries inserted by lines 203-207. -/
noncomputable def segEntries (seg : Segment) : List (String × MVal) :=
  [("path_" ++ seg.desc ++ "_correct BOOLEAN", MVal.bool (correctB seg)),
   ("path_" ++ seg.desc ++ "_length REAL", MVal.real (pathLength seg)),
   ("path_" ++ seg.desc ++ "_clearance REAL",
      MVal.real (clearanceLoop seg.dclear seg.waypointCount)),
   ("path_" ++ seg.desc ++ "_smoothness REAL",
      MVal.real (smoothness seg.dist seg.waypointCount)),
   ("path_" ++ seg.desc ++ "_time REAL", MVal.real seg.processingTime)]

/-- `BenchmarkService::collectMetrics`, lines 133-215: `total_time` and
`solved` are always recorded; the per-segment metrics and the residual
`process_time` are recorded only inside `if (solved)`. -/
noncomputable def collectMetrics (mp : MPRes) (solved : Bool) (totalTime : ℝ) :
    RunData :=
  let base := [("total_time REAL", MVal.real totalTime),
               ("solved BOOLEAN", MVal.bool solved)]
  if solved then
    base ++ mp.segments.flatMap segEntries ++
      [("process_time REAL",
        MVal.real (residualTime totalTime (mp.segments.map Segment.processingTime)))]
  else base

/-- The repetition loop of lines 328-345: for one (planner, algorithm)
pair, repetition `c` invokes `solve` (abstracted as `solver c`, returning
the solved flag, the detailed response and the measured wall time) and
collects metrics; every repetition produces a record regardless of the
outcome of earlier repetitions. -/
noncomputable def runReps (solver : ℕ → Bool × MPRes × ℝ) (n : ℕ) :
    List RunData :=
  (List.range n).map (fun c =>
    collectMetrics (solver c).2.1 (solver c).1 (solver c).2.2)

/-- The property union of a group, lines 370-377: every key of every run of
the group is inserted into the set `propSeen`; modelled as the deduplicated
list of all keys (the claims only use its membership and cardinality). -/
def propUnion (runs : List RunData) : List String :=
  (runs.flatMap (fun r => r.map Prod.fst)).dedup

/-- One serialized group of the report, lines 361-394: the header line
`<description>_<planner_id>`, the property list printed after
`... properties for each run`, and the run rows.  A row field is `none`
when the run lacks the property (rendered as an empty field). -/
structure ReportSectionT where
  header : String
  properties : List String
  rows : List (List (Option MVal))

/-- One report section for one (planner, algorithm) group, lines 361-394:
the header line, the property list, and one row per run where each column
holds the value of the run for that property or is left empty (lines 384-390:
`find` prints the value when present, always followed by the separator). -/
def reportSection (header : String) (runs : List RunData) : ReportSectionT :=
  ⟨header, propUnion runs, runs.map (fun run => (propUnion runs).map run.lookup)⟩

/-- One entry of `req.planner_interfaces`: a planner interface name and the
requested algorithm ids for it. -/
structure PlannerInterfaceReq where
  name : String
  planner_ids : List String
deriving DecidableEq

/-- The parts of `moveit_msgs::ComputePlanningBenchmark::Request` that
`computeBenchmark` reads: the interface restrictions, the parallel
per-restriction repetition counts `average_count`, the default repetition
count, and the planning group name of the request (used by the
`<group>[<id>]` match at line 270). -/
structure BenchmarkRequest where
  planner_interfaces : List PlannerInterfaceReq
  average_count : List ℕ
  default_average_count : ℕ
  group_name : String
deriving DecidableEq

/-- One loaded planner interface of `planner_interfaces_`: its map key, the
algorithm ids returned by `getPlanningAlgorithms`, the result of
`canServiceRequest` for this request, and `getDescription()`. -/
structure PlannerInst where
  name : String
  algorithms : List String
  canService : Bool
  description : String
deriving DecidableEq

/-- One accepted candidate planner: the data pushed onto `pi`,
`planner_ids` and `average_count` by lines 252-280. -/
structure Candidate where
  name : String
  description : String
  plannerIds : List String
  averageCount : ℕ
deriving DecidableEq

/-- The inner search of lines 268-274: scan the declared ids `known` and
stop at the first `q` with `q == r` or `group ++ "[" ++ q ++ "]" == r`. -/
def matchLoop (group r : String) : List String → Bool
  | [] => false
  | q :: rest =>
    if q == r || (group ++ "[" ++ q ++ "]") == r then true
    else matchLoop group r rest

/-- The outer validation loop of lines 266-279: each requested id is kept
(in request order) when `matchLoop` finds a declared id for it, and is
dropped (only logged) otherwise. -/
def keepLoop (group : String) (known : List String) : List String → List String
  | [] => []
  | r :: rest =>
    if matchLoop group r known then r :: keepLoop group known rest
    else keepLoop group known rest

/-- The per-planner body of the loop at lines 234-284: the planner is
skipped when the request restricts interfaces and this one is not named
(`found < 0` with a non-empty `req.planner_interfaces`, line 246) or when
`canServiceRequest` declines (line 250); otherwise a candidate is built
with all declared ids and the default count when `found < 0` or the named
id list is empty (lines 257, 260-261), and with the validated id list and
the (bounds-checked) per-restriction count otherwise (lines 264-279). -/
def resolveCandidate (req : BenchmarkRequest) (inst : PlannerInst) :
    Option Candidate :=
  if req.planner_interfaces.isEmpty = false ∧
      req.planner_interfaces.findIdx? (fun pir => pir.name == inst.name) = none then
    none
  else if inst.canService = false then
    none
  else
    match req.planner_interfaces.findIdx? (fun pir => pir.name == inst.name) with
    | none =>
      some ⟨inst.name, inst.description, inst.algorithms,
            max 1 req.default_average_count⟩
    | some f =>
      if (req.planner_interfaces.getD f ⟨"", []⟩).planner_ids.isEmpty then
        some ⟨inst.name, inst.description, inst.algorithms,
              max 1 req.default_average_count⟩
      else
        some ⟨inst.name, inst.description,
              keepLoop req.group_name inst.algorithms
                (req.planner_interfaces.getD f ⟨"", []⟩).planner_ids,
              if f < req.average_count.length then
                max 1 (req.average_count.getD f 0)
              else max 1 req.default_average_count⟩

/-- The full candidate list built by the loop at lines 234-284, in registry
iteration order. -/
def candidates (req : BenchmarkRequest) (reg : List PlannerInst) :
    List Candidate :=
  reg.filterMap (resolveCandidate req)

/-- `total_n_planners` of lines 308-314: the sum over candidates of the
resolved algorithm-id count; written on the `... planners` line 360. -/
def totalNPlanners (cs : List Candidate) : ℕ :=
  (cs.map (fun c => c.plannerIds.length)).sum

/-- The written report, lines 353-394: the value printed on the
`<n> planners` line and the ordered group sections. -/
structure Report where
  plannerCount : ℕ
  sections : List ReportSectionT

/-- Report construction, lines 308-314 and 361-394: one section per
(candidate, algorithm id) pair in candidate-then-id order, each holding the
records of the `average_count[i]` repetitions of that pair. -/
noncomputable def mkReport (cs : List Candidate)
    (solver : String → String → ℕ → Bool × MPRes × ℝ) : Report :=
  ⟨totalNPlanners cs,
   cs.flatMap (fun c =>
     c.plannerIds.map (fun alg =>
       reportSection (c.description ++ "_" ++ alg)
         (runReps (solver c.name alg) c.averageCount)))⟩

/-- The outcome of one `computeBenchmark` service call: the boolean the
handler returns (`false` at line 289, `true` at line 398, where line 397
also sets `SUCCESS`) and the report contents it wrote (none when it
returned early). -/
structure InvocationResult where
  success : Bool
  report : Option Report

/-- `BenchmarkService::computeBenchmark`, lines 217-399: resolve the
candidates; when `pi` is empty return `false` with no report (lines
286-290); otherwise run the whole trial matrix, write the report and
return `true`.  `writeOk` models whether the `std::ofstream` writes of
lines 353-395 succeed: the source never inspects the stream state, so the
result cannot depend on it. -/
noncomputable def computeBenchmark (req : BenchmarkRequest)
    (reg : List PlannerInst) (solver : String → String → ℕ → Bool × MPRes × ℝ)
    (writeOk : Bool) : InvocationResult :=
  if candidates req reg = [] then ⟨false, none⟩
  else ⟨true, some (mkReport (candidates req reg) solver)⟩

/-- Modelled from the spec wording of the smoothness metric (claim C2):
the direct per-index contribution for waypoint index `k ≥ 2`, with sides
`a = dist (k-2) (k-1)`, `b = dist (k-1) k`, `c = dist (k-2) k`. -/
noncomputable def turnContribution (dist : ℕ → ℕ → ℝ) (k : ℕ) : ℝ :=
  let a := dist (k - 2) (k - 1)
  let b := dist (k - 1) k
  let c := dist (k - 2) k
  let acosValue := (a * a + b * b - c * c) / (2 * a * b)
  if -1 < acosValue ∧ acosValue < 1 then
    (2 * (Real.pi - Real.arccos acosValue)) ^ 2
  else 0

/-- Modelled from the spec wording of the smoothness metric (claim C2):
sum of the per-index contributions for `2 ≤ k < n`, divided by the
waypoint count, and `0` for fewer than 3 waypoints. -/
noncomputable def smoothnessSpec (dist : ℕ → ℕ → ℝ) (n : ℕ) : ℝ :=
  if n < 3 then 0
  else (∑ k ∈ Finset.Ico 2 n, turnContribution dist k) / (n : ℝ)

/-- The repetition-count rule actually implemented by lines 256-265 (the
amended claim C3): the per-restriction override `average_count[found]` is
used only when the planner is named in the request with a non-empty
algorithm id list and the override entry exists; otherwise the default is
used; both are clamped below by 1. -/
def repCountAmended (req : BenchmarkRequest) (inst : PlannerInst) : ℕ :=
  match req.planner_interfaces.findIdx? (fun pir => pir.name == inst.name) with
  | none => max 1 req.default_average_count
  | some f =>
    if (req.planner_interfaces.getD f ⟨"", []⟩).planner_ids ≠ [] ∧
        f < req.average_count.length then
      max 1 (req.average_count.getD f 0)
    else max 1 req.default_average_count

/-- The algorithm-id resolution rule stated by claim C5, written from the
words of the spec: all declared ids when the request names none for this
planner, otherwise the requested names that match a declared id directly
or as `<group>[<declaredId>]`, kept in request order. -/
def algListSpec (req : BenchmarkRequest) (inst : PlannerInst) : List String :=
  match req.planner_interfaces.findIdx? (fun pir => pir.name == inst.name) with
  | none => inst.algorithms
  | some f =>
    if (req.planner_interfaces.getD f ⟨"", []⟩).planner_ids = [] then
      inst.algorithms
    else
      (req.planner_interfaces.getD f ⟨"", []⟩).planner_ids.filter
        (fun r => inst.algorithms.any
          (fun q => q == r || (req.group_name ++ "[" ++ q ++ "]") == r))

/-! Helper lemmas. -/

lemma foldl_sub_eq (ts : List ℝ) : ∀ t : ℝ,
    ts.foldl (fun acc x => acc - x) t = t - ts.sum := by
  induction ts with
  | nil => intro t; simp
  | cons h tl ih => intro t; simp only [List.foldl_cons, List.sum_cons, ih]; ring

lemma foldl_add_range (f : ℕ → ℝ) : ∀ (n : ℕ) (a : ℝ),
    (List.range n).foldl (fun acc k => acc + f k) a
      = a + ∑ k ∈ Finset.range n, f k := by
  intro n
  induction n with
  | zero => intro a; simp
  | succ m ih =>
    intro a
    rw [List.range_succ, List.foldl_append, ih, Finset.sum_range_succ]
    simp only [List.foldl_cons, List.foldl_nil]
    ring

lemma matchLoop_eq_any (group r : String) : ∀ known : List String,
    matchLoop group r known
      = known.any (fun q => q == r || (group ++ "[" ++ q ++ "]") == r) := by
  intro known
  induction known with
  | nil => rfl
  | cons q rest ih =>
    by_cases h : (q == r || (group ++ "[" ++ q ++ "]") == r) = true
    · simp [matchLoop, h]
    · simp only [matchLoop, if_neg h, List.any_cons, ih]
      rw [Bool.eq_false_iff.mpr h, Bool.false_or]

lemma keepLoop_eq_filter (group : String) (known : List String) :
    ∀ rs : List String,
      keepLoop group known rs
        = rs.filter (fun r => known.any
            (fun q => q == r || (group ++ "[" ++ q ++ "]") == r)) := by
  intro rs
  induction rs with
  | nil => rfl
  | cons r rest ih =>
    rw [List.filter_cons]
    by_cases h : matchLoop group r known = true
    · rw [keepLoop, if_pos h, ih, if_pos (matchLoop_eq_any group r known ▸ h)]
    · rw [keepLoop, if_neg h, ih,
        if_neg (matchLoop_eq_any group r known ▸ h)]

lemma map_const_eq_replicate {α β : Type} (b : β) :
    ∀ l : List α, l.map (fun _ => b) = List.replicate l.length b := by
  intro l
  induction l with
  | nil => rfl
  | cons h t ih => simp [List.replicate_succ, ih]

lemma length_flatMap_eq {α β : Type} (f : α → List β) :
    ∀ l : List α, (l.flatMap f).length = (l.map (fun a => (f a).length)).sum := by
  intro l
  induction l with
  | nil => rfl
  | cons h t ih => simp [List.flatMap_cons, List.length_append, ih]

lemma smoothAux_eq (dist : ℕ → ℕ → ℝ) : ∀ (j k : ℕ) (acc : ℝ),
    smoothAux dist j k (dist (k - 2) (k - 1)) acc
      = acc + ∑ i ∈ Finset.Ico k (k + j), turnContribution dist i := by
  intro j
  induction j with
  | zero => intro k acc; simp [smoothAux]
  | succ m ih =>
    intro k acc
    simp only [smoothAux]
    have hk2 : k + 1 - 2 = k - 1 := by omega
    have hk1 : k + 1 - 1 = k := by omega
    have h := ih (k + 1)
    rw [hk2, hk1] at h
    rw [h]
    rw [Finset.sum_eq_sum_Ico_succ_bot (by omega : k < k + (m + 1))
      (turnContribution dist)]
    have harr : k + 1 + m = k + (m + 1) := by omega
    rw [harr]
    simp only [turnContribution]
    split_ifs with hcond
    · ring
    · ring

/-! Theorems settling the claims. -/

/-- C2 (confirmed): for every segment, the smoothness computed by the
carried-side loop of lines 173-202 of `run_benchmark.cpp` equals the
formula of the spec: for each waypoint index `i ≥ 2` with sides
`a = dist(i-2,i-1)`, `b = dist(i-1,i)`, `c = dist(i-2,i)`, the value
`cos = (a^2+b^2-c^2)/(2ab)` contributes `(2*(pi - arccos cos))^2` exactly
when it lies strictly inside `(-1, 1)` and is skipped otherwise; the total
is divided by the waypoint count, and fewer than 3 waypoints gives `0`. -/
theorem smoothness_matches_spec (dist : ℕ → ℕ → ℝ) (n : ℕ) :
    smoothness dist n = smoothnessSpec dist n := by
  by_cases h : 2 < n
  · have h3 : ¬ n < 3 := by omega
    rw [smoothness, smoothnessSpec, if_pos h, if_neg h3]
    have h0 : dist 0 1 = dist (2 - 2) (2 - 1) := rfl
    rw [h0, smoothAux_eq dist (n - 2) 2 0]
    have hn : 2 + (n - 2) = n := by omega
    rw [hn, zero_add]
  · have h3 : n < 3 := by omega
    rw [smoothness, smoothnessSpec, if_neg h, if_pos h3]

/-- C7 (confirmed): the residual processing time of lines 144, 208-212
equals the total trial wall time minus the sum of the per-segment solve
times, floored at 0, hence is never negative; and in a solved record it is
the value stored under `process_time REAL`. -/
theorem residual_time_floored (t : ℝ) (ts : List ℝ) (mp : MPRes) :
    residualTime t ts = max 0 (t - ts.sum) ∧ 0 ≤ residualTime t ts ∧
    (collectMetrics mp true t).getLast?
      = some ("process_time REAL",
          MVal.real (residualTime t (mp.segments.map Segment.processingTime))) := by
  have hmain : residualTime t ts = max 0 (t - ts.sum) := by
    rw [residualTime, foldl_sub_eq]
    by_cases h : t - ts.sum ≤ 0
    · rw [if_pos h]; exact (max_eq_left h).symm
    · push_neg at h
      rw [if_neg (not_le.mpr h)]; exact (max_eq_right h.le).symm
  refine ⟨hmain, ?_, ?_⟩
  · rw [hmain]; exact le_max_left 0 _
  · simp only [collectMetrics, if_pos rfl]
    exact List.getLast?_concat _

/-- C10 (confirmed): the clearance of lines 161-170 is the accumulated
per-waypoint clearance divided by the waypoint count, with no guard on the
divisor; with at least one waypoint the divisor is nonzero and the value
is the genuine arithmetic mean, while a zero-waypoint segment yields the
unguarded quotient of an empty accumulation by zero. -/
theorem clearance_unguarded_mean (dclear : ℕ → ℝ) (n : ℕ) :
    clearanceLoop dclear n = (∑ k ∈ Finset.range n, dclear k) / (n : ℝ) ∧
    (0 < n → ((n : ℝ) ≠ 0 ∧
      clearanceLoop dclear n * (n : ℝ) = ∑ k ∈ Finset.range n, dclear k)) ∧
    clearanceLoop dclear 0 = 0 / 0 := by
  have hmain : clearanceLoop dclear n
      = (∑ k ∈ Finset.range n, dclear k) / (n : ℝ) := by
    rw [clearanceLoop, foldl_add_range, zero_add]
  refine ⟨hmain, fun hn => ⟨?_, ?_⟩, by simp [clearanceLoop]⟩
  · exact Nat.cast_ne_zero.mpr (by omega)
  · rw [hmain, div_mul_cancel₀ _ (Nat.cast_ne_zero.mpr (by omega : n ≠ 0))]

/-- Witness for C10 at a concrete input: a single-waypoint segment with
clearance value 2 everywhere has a nonzero divisor and mean 2 · 1. -/
theorem clearance_unguarded_mean_witness :
    ((1 : ℕ) : ℝ) ≠ 0 ∧
    clearanceLoop (fun _ => (2 : ℝ)) 1 * ((1 : ℕ) : ℝ)
      = ∑ k ∈ Finset.range 1, (2 : ℝ) :=
  (clearance_unguarded_mean (fun _ => (2 : ℝ)) 1).2.1 (by norm_num)

/-- C1 (amended): a failed solve yields a record holding exactly the
`total_time` entry and `solved=false` — the quality metrics are omitted
(lines 142-214: everything else sits inside `if (solved)`), not recorded
as zero — and every repetition of the matrix still produces a record
(lines 328-345 never break out of the repetition loop). -/
theorem failed_solve_record (mp : MPRes) (t : ℝ) :
    collectMetrics mp false t
      = [("total_time REAL", MVal.real t),
         ("solved BOOLEAN", MVal.bool false)] ∧
    ∀ (solver : ℕ → Bool × MPRes × ℝ) (n : ℕ), (runReps solver n).length = n := by
  refine ⟨rfl, ?_⟩
  intro solver n
  simp [runReps]

/-- Counterexample to C1 as stated: for a failed trial over a trajectory
with one segment described `"plan"`, no `path_plan_length REAL` entry is
recorded at all (in particular it is not recorded with value zero), while
`solved BOOLEAN` is recorded as false. -/
theorem failed_solve_record_cex :
    (collectMetrics ⟨[⟨"plan", 3, fun _ _ => 1, fun _ => 1, fun _ => false, 1⟩]⟩
        false 1).lookup "path_plan_length REAL" = none ∧
    (collectMetrics ⟨[⟨"plan", 3, fun _ _ => 1, fun _ => 1, fun _ => false, 1⟩]⟩
        false 1).lookup "solved BOOLEAN" = some (MVal.bool false) :=
  ⟨rfl, rfl⟩

/-- C4 (confirmed): a (planner, algorithm) group benchmarked with `n`
repetitions yields a report section with exactly `n` run rows (lines 328,
381-382: `RunData runs(average_count[i])` and `data[ri].size() runs`);
every row has the same column count, equal to the size of the union of
property keys over the records of that group alone (lines 370-390), the union
being duplicate-free and containing exactly the keys observed in the
group. -/
theorem group_section_shape (header : String)
    (solver : ℕ → Bool × MPRes × ℝ) (n : ℕ) :
    (reportSection header (runReps solver n)).rows.length = n ∧
    (reportSection header (runReps solver n)).rows.map List.length
      = List.replicate n
          (reportSection header (runReps solver n)).properties.length ∧
    (reportSection header (runReps solver n)).properties.Nodup ∧
    ∀ key : String,
      key ∈ (reportSection header (runReps solver n)).properties ↔
        ∃ run ∈ runReps solver n, key ∈ run.map Prod.fst := by
  refine ⟨?_, ?_, ?_, ?_⟩
  · simp [reportSection, runReps]
  · simp only [reportSection, List.map_map]
    have hcomp : (List.length ∘ fun run : RunData =>
        (propUnion (runReps solver n)).map run.lookup)
        = fun _ : RunData => (propUnion (runReps solver n)).length :=
      funext fun run => by simp [List.length_map]
    rw [hcomp, map_const_eq_replicate]
    have hlen : (runReps solver n).length = n := by simp [runReps]
    rw [hlen]
  · exact List.nodup_dedup _
  · intro key
    simp [reportSection, propUnion, List.mem_dedup, List.mem_flatMap]

/-- C6 (amended): the number written on the `<n> planners` line is
`total_n_planners` of lines 308-314, the total number of resolved
(planner, algorithm) pairs, which equals the number of group sections of
the report (lines 361-394), not the number of tested planner
interfaces. -/
theorem planners_line_counts_pairs (cs : List Candidate)
    (solver : String → String → ℕ → Bool × MPRes × ℝ) :
    (mkReport cs solver).plannerCount = totalNPlanners cs ∧
    (mkReport cs solver).sections.length = totalNPlanners cs := by
  refine ⟨rfl, ?_⟩
  show (cs.flatMap fun c => c.plannerIds.map fun alg =>
      reportSection (c.description ++ "_" ++ alg)
        (runReps (solver c.name alg) c.averageCount)).length = totalNPlanners cs
  rw [length_flatMap_eq]
  have hfun : (fun c : Candidate =>
      (c.plannerIds.map fun alg => reportSection (c.description ++ "_" ++ alg)
        (runReps (solver c.name alg) c.averageCount)).length)
      = fun c : Candidate => c.plannerIds.length :=
    funext fun c => List.length_map _ _
  rw [hfun, totalNPlanners]

/-- Counterexample to C6 as stated: one tested planner interface with two
resolved algorithm ids makes the planners line of the report read 2 while the
number of tested planners is 1. -/
theorem planners_line_cex :
    (mkReport (candidates ⟨[], [], 1, "grp"⟩ [⟨"plA", ["x", "y"], true, "descA"⟩])
        (fun _ _ _ => (false, ⟨[]⟩, 0))).plannerCount = 2 ∧
    (candidates ⟨[], [], 1, "grp"⟩ [⟨"plA", ["x", "y"], true, "descA"⟩]).length
      = 1 ∧
    (2 : ℕ) ≠ 1 :=
  ⟨rfl, rfl, by decide⟩

/-- C8 (confirmed): the invocation returns a failure exactly when the
resolved candidate set is empty (lines 286-290), and in that case no
report is produced; in every other case it proceeds and produces one
(lines 292-398 always reach the final `return true`). -/
theorem empty_candidates_fails (req : BenchmarkRequest)
    (reg : List PlannerInst)
    (solver : String → String → ℕ → Bool × MPRes × ℝ) (writeOk : Bool) :
    ((computeBenchmark req reg solver writeOk).success = false ↔
        candidates req reg = []) ∧
    ((computeBenchmark req reg solver writeOk).report = none ↔
        candidates req reg = []) := by
  by_cases h : candidates req reg = []
  · simp [computeBenchmark, h]
  · simp [computeBenchmark, h]

/-- C9 (amended): a failure of the report file write is not detected at
all — the handler result is computed without consulting the stream state
(lines 353-398 contain no check), so the invocation reports success
whenever the candidate set is non-empty, regardless of the write
outcome. -/
theorem write_failure_ignored (req : BenchmarkRequest)
    (reg : List PlannerInst)
    (solver : String → String → ℕ → Bool × MPRes × ℝ) :
    computeBenchmark req reg solver false = computeBenchmark req reg solver true ∧
    (computeBenchmark req reg solver false).success
      = !(candidates req reg).isEmpty := by
  refine ⟨rfl, ?_⟩
  cases h : candidates req reg with
  | nil => simp [computeBenchmark, h]
  | cons c cs => simp [computeBenchmark, h]

/-- Counterexample to C9 as stated: with one serviceable planner and a
failing report write, the invocation still returns success. -/
theorem write_failure_ignored_cex :
    (computeBenchmark ⟨[], [], 1, "grp"⟩ [⟨"plA", ["x"], true, "dA"⟩]
        (fun _ _ _ => (false, ⟨[]⟩, 0)) false).success = true := rfl

/-- C5 (confirmed): the resolved algorithm id list of a candidate is all of the
declared ids of the planner when the request names none for it, and otherwise
exactly the requested names, in request order, that equal a declared id or
`<group>[<declaredId>]` for some declared id — unmatched names are dropped
while the candidate itself is still produced (lines 256-280). -/
theorem resolved_algorithms (req : BenchmarkRequest) (inst : PlannerInst)
    (c : Candidate) (h : resolveCandidate req inst = some c) :
    c.plannerIds = algListSpec req inst := by
  unfold resolveCandidate at h
  by_cases hskip : req.planner_interfaces.isEmpty = false ∧
      req.planner_interfaces.findIdx? (fun pir => pir.name == inst.name) = none
  · rw [if_pos hskip] at h; cases h
  · rw [if_neg hskip] at h
    by_cases hcs : inst.canService = false
    · rw [if_pos hcs] at h; cases h
    · rw [if_neg hcs] at h
      unfold algListSpec
      cases hfound : req.planner_interfaces.findIdx?
          (fun pir => pir.name == inst.name) with
      | none =>
        rw [hfound] at h
        simp only [] at h ⊢
        injection h with h2
        rw [← h2]
      | some f =>
        rw [hfound] at h
        simp only [] at h ⊢
        by_cases hemp :
            (req.planner_interfaces.getD f ⟨"", []⟩).planner_ids.isEmpty = true
        · rw [if_pos hemp] at h
          injection h with h2
          rw [← h2, if_pos (List.isEmpty_iff.mp hemp)]
        · rw [if_neg hemp] at h
          injection h with h2
          rw [← h2, if_neg (fun heq => hemp (List.isEmpty_iff.mpr heq))]
          exact keepLoop_eq_filter req.group_name inst.algorithms _

/-- Witness for C5 at a concrete input: declared ids `["x", "y"]` in group
`"grp"`, requested names `["y", "grp[x]", "bogus"]` resolve to
`["y", "grp[x]"]` in request order, with `"bogus"` dropped. -/
theorem resolved_algorithms_witness :
    (⟨"plA", "dA", ["y", "grp[x]"], 1⟩ : Candidate).plannerIds
      = algListSpec ⟨[⟨"plA", ["y", "grp[x]", "bogus"]⟩], [], 1, "grp"⟩
          ⟨"plA", ["x", "y"], true, "dA"⟩ :=
  resolved_algorithms _ _ _ rfl

/-- C3 (amended): the repetition count of a (planner, algorithm) pair is
`max 1 average_count[found]` only when the request names the planner with
a non-empty algorithm id list and the override entry exists at the
request position of the planner (lines 260-265); in every other case — in
particular when the planner is named with an empty id list even though an
override entry is present — it is `max 1 default_average_count` (line
257); in all cases it is at least 1. -/
theorem repetition_count_amended (req : BenchmarkRequest)
    (inst : PlannerInst) (c : Candidate)
    (h : resolveCandidate req inst = some c) :
    c.averageCount = repCountAmended req inst ∧ 1 ≤ c.averageCount := by
  unfold resolveCandidate at h
  by_cases hskip : req.planner_interfaces.isEmpty = false ∧
      req.planner_interfaces.findIdx? (fun pir => pir.name == inst.name) = none
  · rw [if_pos hskip] at h; cases h
  · rw [if_neg hskip] at h
    by_cases hcs : inst.canService = false
    · rw [if_pos hcs] at h; cases h
    · rw [if_neg hcs] at h
      unfold repCountAmended
      cases hfound : req.planner_interfaces.findIdx?
          (fun pir => pir.name == inst.name) with
      | none =>
        rw [hfound] at h
        simp only [] at h ⊢
        injection h with h2
        rw [← h2]
        exact ⟨rfl, le_max_left 1 _⟩
      | some f =>
        rw [hfound] at h
        simp only [] at h ⊢
        by_cases hemp :
            (req.planner_interfaces.getD f ⟨"", []⟩).planner_ids.isEmpty = true
        · rw [if_pos hemp] at h
          injection h with h2
          rw [← h2, if_neg (fun hc => hc.1 (List.isEmpty_iff.mp hemp))]
          exact ⟨rfl, le_max_left 1 _⟩
        · rw [if_neg hemp] at h
          injection h with h2
          rw [← h2]
          by_cases hf : f < req.average_count.length
          · rw [if_pos hf,
              if_pos (show (req.planner_interfaces.getD f ⟨"", []⟩).planner_ids
                    ≠ [] ∧ f < req.average_count.length from
                ⟨fun heq => hemp (List.isEmpty_iff.mpr heq), hf⟩)]
            exact ⟨rfl, le_max_left 1 _⟩
          · rw [if_neg hf,
              if_neg (show ¬((req.planner_interfaces.getD f ⟨"", []⟩).planner_ids
                    ≠ [] ∧ f < req.average_count.length) from
                fun hc => hf hc.2)]
            exact ⟨rfl, le_max_left 1 _⟩

/-- Witness for the amended statement of C3 at a concrete input: the request
names planner `"plA"` with the non-empty id list `["x"]` and override 5,
so the candidate runs 5 repetitions. -/
theorem repetition_count_amended_witness :
    (⟨"plA", "dA", ["x"], 5⟩ : Candidate).averageCount
        = repCountAmended ⟨[⟨"plA", ["x"]⟩], [5], 2, "grp"⟩
            ⟨"plA", ["x"], true, "dA"⟩ ∧
    1 ≤ (⟨"plA", "dA", ["x"], 5⟩ : Candidate).averageCount :=
  repetition_count_amended _ _ _ rfl

/-- Counterexample to C3 as stated: planner `"plA"` is named in the
request with an empty algorithm id list while an override entry (5) is
present at its position; the code still uses the default 2, not the
override 5. -/
theorem repetition_count_cex :
    (candidates ⟨[⟨"plA", []⟩], [5], 2, "grp"⟩
        [⟨"plA", ["x", "y"], true, "dA"⟩]).map (fun c => c.averageCount)
      = [2] ∧
    (⟨[⟨"plA", []⟩], [5], 2, "grp"⟩ : BenchmarkRequest).average_count = [5] ∧
    (candidates ⟨[⟨"plA", []⟩], [5], 2, "grp"⟩
        [⟨"plA", ["x", "y"], true, "dA"⟩]).map (fun c => c.averageCount)
      ≠ [5] :=
  ⟨rfl, rfl, by decide⟩

end RunBenchmark
